import Mathlib

/-!
Shallow embedding of the `sgth` data-cleaning pipeline
(`data_transformations/models/bronze/users_flagged.py`,
`data_transformations/models/silver/users_stage.py`,
`data_transformations/models/silver/anomalies_log.py`).

Polars columns are embedded as `Option`-valued record fields; polars
boolean expressions over nullable columns follow Kleene three-valued
logic, embedded as operations on `Option Bool`.  The email check uses a
regular-expression substring search (`Series.str.contains`), embedded as
a Brzozowski-derivative matcher over `List Char` together with an
inductive match semantics and a proved correspondence.
-/

namespace Sgth

/-! ## Regular expressions (for `EMAIL_REGEX` and `str.contains`) -/

/-- Regular expressions over `Char`, with character classes given by a
Boolean predicate (as in the character classes of `EMAIL_REGEX`). -/
inductive RE : Type where
  | fail : RE
  | eps : RE
  | cls (p : Char → Bool) : RE
  | cat (a b : RE) : RE
  | alt (a b : RE) : RE
  | star (a : RE) : RE

/-- The language of a regular expression, as an inductive predicate. -/
inductive RMatch : RE → List Char → Prop where
  | eps : RMatch .eps []
  | cls {p : Char → Bool} {c : Char} (h : p c = true) : RMatch (.cls p) [c]
  | cat {a b : RE} {u v : List Char} (ha : RMatch a u) (hb : RMatch b v) :
      RMatch (.cat a b) (u ++ v)
  | altL {a b : RE} {s : List Char} (h : RMatch a s) : RMatch (.alt a b) s
  | altR {a b : RE} {s : List Char} (h : RMatch b s) : RMatch (.alt a b) s
  | starNil {a : RE} : RMatch (.star a) []
  | starCons {a : RE} {u v : List Char} (hu : RMatch a u) (hv : RMatch (.star a) v) :
      RMatch (.star a) (u ++ v)

/-- Smart alternative constructor, pruning `fail`. -/
def mkAlt : RE → RE → RE
  | .fail, b => b
  | a, .fail => a
  | a, b => .alt a b

/-- Smart concatenation constructor, pruning `fail` and `eps`. -/
def mkCat : RE → RE → RE
  | .fail, _ => .fail
  | _, .fail => .fail
  | .eps, b => b
  | a, .eps => a
  | a, b => .cat a b

/-- Does the expression accept the empty word? -/
def nullable : RE → Bool
  | .fail => false
  | .eps => true
  | .cls _ => false
  | .cat a b => nullable a && nullable b
  | .alt a b => nullable a || nullable b
  | .star _ => true

/-- Brzozowski derivative of a regular expression by one character. -/
def deriv : RE → Char → RE
  | .fail, _ => .fail
  | .eps, _ => .fail
  | .cls p, c => if p c then .eps else .fail
  | .cat a b, c =>
      if nullable a then mkAlt (mkCat (deriv a c) b) (deriv b c)
      else mkCat (deriv a c) b
  | .alt a b, c => mkAlt (deriv a c) (deriv b c)
  | .star a, c => mkCat (deriv a c) (.star a)

/-- Executable matcher: fold the derivative across the word. -/
def rmatchB (r : RE) (s : List Char) : Bool :=
  nullable (s.foldl deriv r)

/-- `star` of the universal character class: matches any word. -/
def anyStar : RE := .star (.cls fun _ => true)

/-- Executable substring search, the semantics of polars
`Series.str.contains(regex, literal=False)` (Rust `regex` crate
`is_match`, i.e. "some substring matches"). -/
def containsB (r : RE) (s : List Char) : Bool :=
  rmatchB (.cat anyStar (.cat r anyStar)) s

/-! ## The `EMAIL_REGEX` constant of `users_flagged.py`

Translated constructor-by-constructor from the pattern string
(character classes are written with their code points; e.g. `0x2e` is
`.`, `0x40` is `@`, `0x5c` is backslash). -/

/-- `lo ≤ n ≤ hi`, as a Boolean. -/
def inRange (n lo hi : Nat) : Bool :=
  decide (lo ≤ n) && decide (n ≤ hi)

/-- Single-character class `{n}` (by code point). -/
def chrC (n : Nat) : RE := .cls fun c => decide (c.toNat = n)

/-- Character range class `[lo-hi]` (by code points). -/
def rngC (lo hi : Nat) : RE := .cls fun c => inRange c.toNat lo hi

/-- `r+` -/
def plusR (r : RE) : RE := .cat r (.star r)

/-- `r?` -/
def optR (r : RE) : RE := .alt .eps r

/-- The class ``[a-z0-9!#$%&'*+/=?^_`{|}~-]`` (atom text). -/
def atext : RE := .cls fun c =>
  inRange c.toNat 0x61 0x7a || inRange c.toNat 0x30 0x39 ||
    ([0x21, 0x23, 0x24, 0x25, 0x26, 0x27, 0x2a, 0x2b, 0x2f, 0x3d, 0x3f,
      0x5e, 0x5f, 0x60, 0x7b, 0x7c, 0x7d, 0x7e, 0x2d] : List Nat).contains c.toNat

/-- `(?:atext+(?:\.atext+)*)` — the unquoted (dot-atom) local part. -/
def dotAtom : RE := .cat (plusR atext) (.star (.cat (chrC 0x2e) (plusR atext)))

/-- The class `[\x01-\x08\x0b\x0c\x0e-\x1f\x21\x23-\x5b\x5d-\x7f]`. -/
def qtext : RE := .cls fun c =>
  inRange c.toNat 0x01 0x08 || decide (c.toNat = 0x0b) || decide (c.toNat = 0x0c) ||
    inRange c.toNat 0x0e 0x1f || decide (c.toNat = 0x21) ||
    inRange c.toNat 0x23 0x5b || inRange c.toNat 0x5d 0x7f

/-- `\\[\x01-\x09\x0b\x0c\x0e-\x7f]` — a quoted pair. -/
def qpair : RE := .cat (chrC 0x5c) (.cls fun c =>
  inRange c.toNat 0x01 0x09 || decide (c.toNat = 0x0b) || decide (c.toNat = 0x0c) ||
    inRange c.toNat 0x0e 0x7f)

/-- `"(?:qtext|qpair)*"` — the quoted local part. -/
def quotedLocal : RE := .cat (chrC 0x22) (.cat (.star (.alt qtext qpair)) (chrC 0x22))

/-- The class `[a-z0-9]`. -/
def alnum : RE := .cls fun c =>
  inRange c.toNat 0x61 0x7a || inRange c.toNat 0x30 0x39

/-- The class `[a-z0-9-]`. -/
def alnumDash : RE := .cls fun c =>
  inRange c.toNat 0x61 0x7a || inRange c.toNat 0x30 0x39 || decide (c.toNat = 0x2d)

/-- `[a-z0-9](?:[a-z0-9-]*[a-z0-9])?` — one domain label. -/
def label : RE := .cat alnum (optR (.cat (.star alnumDash) alnum))

/-- `(?:label\.)+label` — a dotted domain name. -/
def dottedDomain : RE := .cat (plusR (.cat label (chrC 0x2e))) label

/-- The class `[0-9]`. -/
def digitC : RE := rngC 0x30 0x39

/-- `(2(5[0-5]|[0-4][0-9])|1[0-9][0-9]|[1-9]?[0-9])` — an IPv4 octet. -/
def octet : RE :=
  .alt (.cat (chrC 0x32) (.alt (.cat (chrC 0x35) (rngC 0x30 0x35))
                               (.cat (rngC 0x30 0x34) digitC)))
       (.alt (.cat (chrC 0x31) (.cat digitC digitC))
             (.cat (optR (rngC 0x31 0x39)) digitC))

/-- The class `[\x01-\x08\x0b\x0c\x0e-\x1f\x21-\x5a\x53-\x7f]` used in the
bracketed general address literal (ranges exactly as in the source). -/
def dtext2 : RE := .cls fun c =>
  inRange c.toNat 0x01 0x08 || decide (c.toNat = 0x0b) || decide (c.toNat = 0x0c) ||
    inRange c.toNat 0x0e 0x1f || inRange c.toNat 0x21 0x5a || inRange c.toNat 0x53 0x7f

/-- `[a-z0-9-]*[a-z0-9]:(?:dtext2|qpair)+` — the general address literal
alternative inside the bracketed domain. -/
def generalLiteral : RE :=
  .cat (.star alnumDash) (.cat alnum (.cat (chrC 0x3a) (plusR (.alt dtext2 qpair))))

/-- `\[(?:octet\.){3}(?:octet|generalLiteral)\]` — the bracketed domain. -/
def bracketDomain : RE :=
  .cat (chrC 0x5b)
    (.cat (.cat octet (chrC 0x2e))
      (.cat (.cat octet (chrC 0x2e))
        (.cat (.cat octet (chrC 0x2e))
          (.cat (.alt octet generalLiteral) (chrC 0x5d)))))

/-- The full `EMAIL_REGEX` of `users_flagged.py`:
`(?:dotAtom|quotedLocal)@(?:dottedDomain|bracketDomain)`. -/
def EMAIL_REGEX : RE :=
  .cat (.alt dotAtom quotedLocal) (.cat (chrC 0x40) (.alt dottedDomain bracketDomain))

/-! ## Kleene three-valued logic over `Option Bool`

Polars boolean expressions over nullable columns: `null` propagates
through comparisons and arithmetic, while `&`/`|` use Kleene logic
(`true | null = true`, `false & null = false`). -/

/-- Kleene disjunction (polars `|` on nullable Booleans). -/
def kor : Option Bool → Option Bool → Option Bool
  | some true, _ => some true
  | _, some true => some true
  | some false, some false => some false
  | _, _ => none

/-- Kleene conjunction (polars `&` on nullable Booleans). -/
def kand : Option Bool → Option Bool → Option Bool
  | some false, _ => some false
  | _, some false => some false
  | some true, some true => some true
  | _, _ => none

/-- Kleene negation (polars `~` on nullable Booleans). -/
def knot (a : Option Bool) : Option Bool := a.map not

/-- Polars `Expr.is_null` — never itself null. -/
def isNullO {α : Type} (x : Option α) : Option Bool := some x.isNone

/-- Null-propagating equality test (polars `==`). -/
def oEq {α : Type} [DecidableEq α] (a b : Option α) : Option Bool :=
  a.bind fun x => b.map fun y => decide (x = y)

/-- Null-propagating `<` on integer columns. -/
def oLtI (a b : Option Int) : Option Bool :=
  a.bind fun x => b.map fun y => decide (x < y)

/-- Null-propagating `>=` on integer columns. -/
def oGeI (a b : Option Int) : Option Bool :=
  a.bind fun x => b.map fun y => decide (y ≤ x)

/-- Null-propagating subtraction on integer columns. -/
def oSubI (a b : Option Int) : Option Int :=
  a.bind fun x => b.map fun y => x - y

/-- Polars `expr / 10**k` on an Int64 column followed by `.cast(pl.Int64)`:
float division then a truncating cast.  For the magnitudes an Int64 phone
can hold relative to the divisors `10^9`/`10^7` the float quotient
truncates to the same value as integer division truncated toward zero,
so it is embedded as `Int.tdiv`. -/
def oTdiv (a : Option Int) (n : Int) : Option Int := a.map fun x => Int.tdiv x n

/-- Polars `.cast(pl.Int64)` on a Boolean column. -/
def b2i (a : Option Bool) : Option Int := a.map fun b => if b then (1 : Int) else 0

/-- Polars `Expr.str.len_chars` (number of characters). -/
def oLenS (a : Option String) : Option Int := a.map fun s => (s.length : Int)

/-- Polars `pl.when(cond).then(t).otherwise(e)`: a null condition yields
a null result. -/
def whenTO {α : Type} (cond : Option Bool) (t e : Option α) : Option α :=
  match cond with
  | some true => t
  | some false => e
  | none => none

/-! ## Calendar dates and string normalization -/

/-- A parsed date/timestamp, as far as the pipeline inspects it
(`dt.year()`, `dt.month()`, `dt.day()`). -/
structure Date where
  year : Int
  month : Int
  day : Int
deriving DecidableEq

/-- Polars `Expr.str.to_lowercase` on one value (ASCII case mapping;
every value the claims exercise is ASCII). -/
def strLower (s : String) : String := ⟨s.data.map Char.toLower⟩

/-- Characters stripped by polars `Expr.str.strip_chars()` with no
argument (leading/trailing whitespace). -/
def trimChars (l : List Char) : List Char :=
  ((l.dropWhile Char.isWhitespace).reverse.dropWhile Char.isWhitespace).reverse

/-- Polars `Expr.str.strip_chars()` on one value. -/
def strTrim (s : String) : String := ⟨trimChars s.data⟩

/-- Title-casing a character stream: a letter is uppercased when the
previous character was not a letter, lowercased otherwise. -/
def titleChars : Bool → List Char → List Char
  | _, [] => []
  | prevAlpha, c :: rest =>
      if c.isAlpha then
        (if prevAlpha then c.toLower else c.toUpper) :: titleChars true rest
      else
        c :: titleChars false rest

/-- Polars `Expr.str.to_titlecase` on one value. -/
def strTitle (s : String) : String := ⟨titleChars false s.data⟩

/-- Numeric value of a digit string (most significant digit first). -/
def digitsVal (l : List Char) : Int :=
  l.foldl (fun acc c => acc * 10 + ((c.toNat : Int) - 48)) 0

/-- Polars `col("phone").cast(pl.Int64, strict=False)` on one raw string
value: an optional sign followed by decimal digits parses to its value
when it fits in an Int64; anything else degrades to missing. -/
def castInt64 (s : String) : Option Int :=
  let core : Option Int :=
    match s.data with
    | [] => none
    | '-' :: ds => if ds ≠ [] ∧ ds.all Char.isDigit then some (-(digitsVal ds)) else none
    | '+' :: ds => if ds ≠ [] ∧ ds.all Char.isDigit then some (digitsVal ds) else none
    | ds => if ds ≠ [] ∧ ds.all Char.isDigit then some (digitsVal ds) else none
  core.bind fun v => if -(2 ^ 63) ≤ v ∧ v < 2 ^ 63 then some v else none

/-! ## Data model: typed and flagged records

One row of the frame built by the bronze model `users_flagged.py`:
the raw string columns the downstream models still read, plus the
typed/normalized columns added by its type-conversion stage. -/

structure TypedRec where
  id_int : Option Int
  phone_int : Option Int
  birth_date_dt : Option Date
  created_at_dt : Option Date
  status_lower : Option String
  email_stripped : Option String
  first_name : Option String
  last_name : Option String
  email : Option String
  phone : Option String
deriving DecidableEq

/-! ## The anomaly predicates of `users_flagged.py` -/

/-- `is_18yo` (lines 20–41): TRUE if the user was under 18 at creation
or either date is missing — the age ANOMALY flag. -/
def is_18yo (birth_date_dt created_at_dt : Option Date) : Option Bool :=
  let age_at_creation :=
    oSubI (oSubI (created_at_dt.map Date.year) (birth_date_dt.map Date.year))
      (b2i (kor (oLtI (created_at_dt.map Date.month) (birth_date_dt.map Date.month))
                (kand (oEq (created_at_dt.map Date.month) (birth_date_dt.map Date.month))
                      (oLtI (created_at_dt.map Date.day) (birth_date_dt.map Date.day)))))
  kor (kor (isNullO birth_date_dt) (isNullO created_at_dt))
      (oLtI age_at_creation (some 18))

/-- `is_invalid_phone_math` (lines 43–65): TRUE if the phone integer is
missing or fails the length/prefix rules. -/
def is_invalid_phone_math (phone_int : Option Int) : Option Bool :=
  let is_missing_or_dirty := isNullO phone_int
  let is_not_ten_digits := kor (oLtI phone_int (some (10 ^ 9))) (oGeI phone_int (some (10 ^ 10)))
  let first_digit := oTdiv phone_int (10 ^ 9)
  let is_invalid_start := kor (oEq first_digit (some 0)) (oEq first_digit (some 1))
  let first_three_digits := oTdiv phone_int (10 ^ 7)
  let is_reserved_pre3 := kor (oEq first_three_digits (some 555)) (oEq first_three_digits (some 911))
  kor (kor (kor is_missing_or_dirty is_not_ten_digits) is_invalid_start) is_reserved_pre3

/-- The email sub-check of `is_invalid_identifiers` (lines 77–82):
NULL/empty, or failure of `str.contains(EMAIL_REGEX)`, is an anomaly. -/
def is_email_invalid (email_stripped : Option String) : Option Bool :=
  kor (kor (isNullO email_stripped) (oEq (oLenS email_stripped) (some 0)))
      (knot (email_stripped.map fun s => containsB EMAIL_REGEX s.data))

/-- `is_invalid_identifiers` (lines 68–87): TRUE if any required
identifier (birthdate, email, phone) is invalid/missing/unparsable. -/
def is_invalid_identifiers (email_stripped : Option String) (phone_int : Option Int)
    (birth_date_dt : Option Date) : Option Bool :=
  let is_bd_invalid := isNullO birth_date_dt
  let is_email_inv := is_email_invalid email_stripped
  let is_phone_inv := is_invalid_phone_math phone_int
  kor (kor is_bd_invalid is_email_inv) is_phone_inv

/-- `is_invalid_status` (lines 90–96): TRUE if the status is null/empty. -/
def is_invalid_status (status_lower : Option String) : Option Bool :=
  kor (isNullO status_lower) (oEq (oLenS status_lower) (some 0))

/-- A `TypedRec` plus the four flag columns added by the anomaly
detection stage of the bronze `model` (lines 124–138). -/
structure FlaggedRec extends TypedRec where
  is_age_anomaly : Option Bool
  is_identifier_anomaly : Option Bool
  is_status_anomaly : Option Bool
  is_anomalous : Option Bool
deriving DecidableEq

/-- The anomaly-detection stage of the bronze `model` on one row:
the two `with_columns` calls of lines 124–138. -/
def flagRecord (t : TypedRec) : FlaggedRec :=
  let age := is_18yo t.birth_date_dt t.created_at_dt
  let ident := is_invalid_identifiers t.email_stripped t.phone_int t.birth_date_dt
  let stat := is_invalid_status t.status_lower
  { t with
    is_age_anomaly := age
    is_identifier_anomaly := ident
    is_status_anomaly := stat
    is_anomalous := kor (kor age ident) stat }

/-- The bronze model's anomaly-detection stage over the whole frame
(`with_columns` acts row-wise). -/
def usersFlaggedModel (l : List TypedRec) : List FlaggedRec :=
  l.map flagRecord

/-! ## The remediation stage `users_stage.py` -/

/-- One row of the output of the silver `users_stage` model
(the final `select`, lines 52–65). -/
structure CleanedRec where
  id : Option Int
  first_name : Option String
  last_name : Option String
  email : Option String
  phone : Option Int
  status : Option String
  birth_date : Option Date
  created_at : Option Date
deriving DecidableEq

/-- The silver `users_stage` model on one row: remediation
(`remediated_df`), imputation (`final_clean_df`) and the final `select`,
exactly as in `users_stage.py` lines 13–65. -/
def cleanRecord (r : FlaggedRec) : CleanedRec :=
  let final_status :=
    whenTO (kand (oEq r.is_anomalous (some false)) (oEq r.status_lower (some "active")))
      (some "active") (some "cancelled")
  let first_name_cleaned := r.first_name.map fun s => strTitle (strTrim s)
  let last_name_cleaned := r.last_name.map fun s => strTitle (strTrim s)
  let first_name_imputed :=
    whenTO (kor (isNullO first_name_cleaned) (oEq (oLenS first_name_cleaned) (some 0)))
      (some "Unknown") first_name_cleaned
  let last_name_imputed :=
    whenTO (kor (isNullO last_name_cleaned) (oEq (oLenS last_name_cleaned) (some 0)))
      (some "Unknown") last_name_cleaned
  let phone_imputed :=
    whenTO (isNullO r.phone_int) (some (-999999999 : Int)) r.phone_int
  { id := r.id_int
    first_name := first_name_imputed
    last_name := last_name_imputed
    email := r.email_stripped
    phone := phone_imputed
    status := final_status
    birth_date := r.birth_date_dt
    created_at := r.created_at_dt }

/-- The silver `users_stage` model over the whole frame: `with_columns`
and `select` act row-wise, so every input row yields exactly one output
row. -/
def usersStageModel (l : List FlaggedRec) : List CleanedRec :=
  l.map cleanRecord

/-! ## The audit-log projector `anomalies_log.py` -/

/-- One row of the `anomalies_log` model output (its `select`,
lines 14–32). -/
structure AuditEntry where
  anomalous_user_id : Option Int
  original_creation_date : Option Date
  remediation_action : Option String
  is_age_anomaly : Option Bool
  is_identifier_anomaly : Option Bool
  is_status_anomaly : Option Bool
  raw_email : Option String
  raw_phone : Option String
deriving DecidableEq

/-- The `select` projection of `anomalies_log.py` on one (anomalous)
row. -/
def auditProj (r : FlaggedRec) : AuditEntry :=
  { anomalous_user_id := r.id_int
    original_creation_date := r.created_at_dt
    remediation_action :=
      some "Status changed to \x27cancelled\x27 due to validation failure"
    is_age_anomaly := r.is_age_anomaly
    is_identifier_anomaly := r.is_identifier_anomaly
    is_status_anomaly := r.is_status_anomaly
    raw_email := r.email
    raw_phone := r.phone }

/-- The row-retention predicate of `df.filter(col("is_anomalous") == True)`:
the null-propagating comparison feeds the filter, which keeps only rows
where the mask is true (a null mask drops the row). -/
def keepAnomalous (r : FlaggedRec) : Bool :=
  (oEq r.is_anomalous (some true)).getD false

/-- The `anomalies_log` model (lines 5–35): filter to anomalous rows,
then project. -/
def anomaliesLogModel (l : List FlaggedRec) : List AuditEntry :=
  (l.filter keepAnomalous).map auditProj

/-! ## Re-running the pipeline on cleaned output -/

/-- Modelled from the spec: re-running the Type Coercion Stage
(`users_flagged.py` lines 110–121) on an already-cleaned record.  The
source stage parses raw strings; on a Cleaned Record the typed fields
(`id`, `phone`, `birth_date`, `created_at`) re-coerce to themselves, and
the two text normalizations (`status` lowercased, `email` trimmed) are
re-applied exactly as in the source. -/
def retypeCleaned (c : CleanedRec) : TypedRec :=
  { id_int := c.id
    phone_int := c.phone
    birth_date_dt := c.birth_date
    created_at_dt := c.created_at
    status_lower := c.status.map strLower
    email_stripped := c.email.map strTrim
    first_name := c.first_name
    last_name := c.last_name
    email := c.email
    phone := c.phone.map fun p => toString p }

/-! ## Spec-side definitions (stated from the spec's words, to be
compared with the source-side definitions above) -/

/-- The spec's age-in-whole-years at `created_at`: subtract 1 from the
year difference whenever `(created.month, created.day)` precedes
`(birth.month, birth.day)` lexicographically. -/
def specAgeYears (b c : Date) : Int :=
  c.year - b.year - (if c.month < b.month ∨ (c.month = b.month ∧ c.day < b.day) then 1 else 0)

/-! ## Concrete records used as witnesses/counterexamples -/

/-- A typed record that is fully valid except that its email is
structurally absent. -/
def missingEmailRec : TypedRec :=
  { id_int := some 1
    phone_int := some 9999999999
    birth_date_dt := some ⟨2000, 6, 15⟩
    created_at_dt := some ⟨2018, 6, 15⟩
    status_lower := some "active"
    email_stripped := none
    first_name := some "John"
    last_name := some "Doe"
    email := none
    phone := some "9999999999" }

/-- A flagged record whose first name is blank and whose phone failed
coercion upstream. -/
def blankNameRec : FlaggedRec :=
  { id_int := some 2
    phone_int := none
    birth_date_dt := some ⟨2000, 6, 15⟩
    created_at_dt := some ⟨2018, 6, 15⟩
    status_lower := some "active"
    email_stripped := some "user@example.com"
    first_name := some "   "
    last_name := some "doe"
    email := some "user@example.com"
    phone := none
    is_age_anomaly := some false
    is_identifier_anomaly := some true
    is_status_anomaly := some false
    is_anomalous := some true }

/-- A fully valid cleaned record, as produced by the remediation stage
for a clean active user. -/
def cleanActiveRec : CleanedRec :=
  { id := some 1
    first_name := some "John"
    last_name := some "Doe"
    email := some "user@example.com"
    phone := some 9999999999
    status := some "active"
    birth_date := some ⟨2000, 6, 15⟩
    created_at := some ⟨2018, 6, 15⟩ }

/-! ## Regex matcher correctness -/

theorem rmatch_fail {s : List Char} : ¬ RMatch .fail s := by
  intro h; cases h

theorem rmatch_eps_iff {s : List Char} : RMatch .eps s ↔ s = [] := by
  constructor
  · intro h; cases h; rfl
  · intro h; subst h; exact .eps

theorem rmatch_cls_iff {p : Char → Bool} {s : List Char} :
    RMatch (.cls p) s ↔ ∃ c, s = [c] ∧ p c = true := by
  constructor
  · intro h; cases h with
    | cls h => exact ⟨_, rfl, h⟩
  · rintro ⟨c, rfl, h⟩; exact .cls h

theorem rmatch_cat_iff {a b : RE} {s : List Char} :
    RMatch (.cat a b) s ↔ ∃ u v, u ++ v = s ∧ RMatch a u ∧ RMatch b v := by
  constructor
  · intro h; cases h with
    | cat ha hb => exact ⟨_, _, rfl, ha, hb⟩
  · rintro ⟨u, v, rfl, ha, hb⟩; exact .cat ha hb

theorem rmatch_alt_iff {a b : RE} {s : List Char} :
    RMatch (.alt a b) s ↔ RMatch a s ∨ RMatch b s := by
  constructor
  · intro h; cases h with
    | altL h => exact Or.inl h
    | altR h => exact Or.inr h
  · rintro (h | h)
    · exact .altL h
    · exact .altR h

/-- Inversion for `star`: a nonempty match peels off a nonempty first block. -/
theorem rmatch_star_inv {a : RE} {s : List Char} (h : RMatch (.star a) s) :
    s = [] ∨ ∃ u v, s = u ++ v ∧ u ≠ [] ∧ RMatch a u ∧ RMatch (.star a) v := by
  generalize hr : RE.star a = r at h
  induction h with
  | eps => cases hr
  | cls _ => cases hr
  | cat _ _ _ _ => cases hr
  | altL _ _ => cases hr
  | altR _ _ => cases hr
  | starNil => exact Or.inl rfl
  | starCons hu hv ihu ihv =>
      rename_i a' u v
      injection hr with ha
      subst ha
      cases u with
      | nil => simpa using ihv rfl
      | cons c u' => exact Or.inr ⟨c :: u', v, rfl, by simp, hu, hv⟩

theorem rmatch_cat_epsL {b : RE} {s : List Char} :
    RMatch (.cat .eps b) s ↔ RMatch b s := by
  rw [rmatch_cat_iff]
  constructor
  · rintro ⟨u, v, rfl, hu, hv⟩
    rw [rmatch_eps_iff] at hu
    subst hu
    simpa using hv
  · intro h
    exact ⟨[], s, by simp, rmatch_eps_iff.mpr rfl, h⟩

theorem rmatch_cat_epsR {a : RE} {s : List Char} :
    RMatch (.cat a .eps) s ↔ RMatch a s := by
  rw [rmatch_cat_iff]
  constructor
  · rintro ⟨u, v, rfl, hu, hv⟩
    rw [rmatch_eps_iff] at hv
    subst hv
    simpa using hu
  · intro h
    exact ⟨s, [], by simp, h, rmatch_eps_iff.mpr rfl⟩

theorem rmatch_mkAlt {a b : RE} {s : List Char} :
    RMatch (mkAlt a b) s ↔ RMatch (.alt a b) s := by
  cases a <;> cases b <;> simp only [mkAlt] <;>
    first
      | exact Iff.rfl
      | simp [rmatch_alt_iff, rmatch_fail]

theorem rmatch_mkCat {a b : RE} {s : List Char} :
    RMatch (mkCat a b) s ↔ RMatch (.cat a b) s := by
  cases a <;> cases b <;> simp only [mkCat] <;>
    first
      | exact Iff.rfl
      | rw [rmatch_cat_epsL]
      | rw [rmatch_cat_epsR]
      | simp [rmatch_cat_iff, rmatch_fail]

theorem nullable_iff {r : RE} : nullable r = true ↔ RMatch r [] := by
  induction r with
  | fail => simp [nullable, rmatch_fail]
  | eps => simp [nullable, rmatch_eps_iff]
  | cls p => simp [nullable, rmatch_cls_iff]
  | cat a b iha ihb =>
      simp only [nullable, Bool.and_eq_true, iha, ihb, rmatch_cat_iff]
      constructor
      · rintro ⟨ha, hb⟩; exact ⟨[], [], rfl, ha, hb⟩
      · rintro ⟨u, v, huv, ha, hb⟩
        rcases List.append_eq_nil.mp huv with ⟨rfl, rfl⟩
        exact ⟨ha, hb⟩
  | alt a b iha ihb =>
      simp [nullable, iha, ihb, rmatch_alt_iff]
  | star a _ =>
      simp only [nullable, true_iff]
      exact .starNil

theorem deriv_sound {r : RE} {c : Char} {s : List Char}
    (h : RMatch (deriv r c) s) : RMatch r (c :: s) := by
  induction r generalizing s with
  | fail => exact absurd h rmatch_fail
  | eps => exact absurd h rmatch_fail
  | cls p =>
      simp only [deriv] at h
      by_cases hp : p c = true
      · rw [if_pos hp, rmatch_eps_iff] at h
        subst h; exact .cls hp
      · rw [if_neg hp] at h; exact absurd h rmatch_fail
  | cat a b iha ihb =>
      simp only [deriv] at h
      by_cases hn : nullable a
      · rw [if_pos hn, rmatch_mkAlt, rmatch_alt_iff, rmatch_mkCat] at h
        rcases h with h | h
        · rcases rmatch_cat_iff.mp h with ⟨u, v, rfl, hu, hv⟩
          exact RMatch.cat (iha hu) hv
        · have : RMatch (.cat a b) ([] ++ (c :: s)) :=
            RMatch.cat (nullable_iff.mp hn) (ihb h)
          simpa using this
      · rw [if_neg hn, rmatch_mkCat] at h
        rcases rmatch_cat_iff.mp h with ⟨u, v, rfl, hu, hv⟩
        exact RMatch.cat (iha hu) hv
  | alt a b iha ihb =>
      rw [deriv, rmatch_mkAlt, rmatch_alt_iff] at h
      rcases h with h | h
      · exact .altL (iha h)
      · exact .altR (ihb h)
  | star a iha =>
      rw [deriv, rmatch_mkCat] at h
      rcases rmatch_cat_iff.mp h with ⟨u, v, rfl, hu, hv⟩
      exact RMatch.starCons (iha hu) hv

theorem deriv_complete {r : RE} {c : Char} {s : List Char}
    (h : RMatch r (c :: s)) : RMatch (deriv r c) s := by
  induction r generalizing s with
  | fail => exact absurd h rmatch_fail
  | eps => rw [rmatch_eps_iff] at h; cases h
  | cls p =>
      rcases rmatch_cls_iff.mp h with ⟨d, hd, hp⟩
      cases hd
      simp only [deriv, hp, if_true]
      exact rmatch_eps_iff.mpr rfl
  | cat a b iha ihb =>
      rcases rmatch_cat_iff.mp h with ⟨u, v, huv, hu, hv⟩
      cases u with
      | nil =>
        have hn : nullable a = true := nullable_iff.mpr hu
        simp only [List.nil_append] at huv
        subst huv
        simp only [deriv, hn, if_true]
        rw [rmatch_mkAlt, rmatch_alt_iff]
        exact Or.inr (ihb hv)
      | cons c' u' =>
        rw [List.cons_append, List.cons.injEq] at huv
        rcases huv with ⟨rfl, rfl⟩
        have hcat : RMatch (mkCat (deriv a c') b) (u' ++ v) :=
          rmatch_mkCat.mpr (RMatch.cat (iha hu) hv)
        simp only [deriv]
        by_cases hn : nullable a
        · rw [if_pos hn, rmatch_mkAlt, rmatch_alt_iff]; exact Or.inl hcat
        · rw [if_neg hn]; exact hcat
  | alt a b iha ihb =>
      rw [rmatch_alt_iff] at h
      rw [deriv, rmatch_mkAlt, rmatch_alt_iff]
      rcases h with h | h
      · exact Or.inl (iha h)
      · exact Or.inr (ihb h)
  | star a iha =>
      rcases rmatch_star_inv h with h0 | ⟨u, v, huv, hne, hu, hv⟩
      · cases h0
      · cases u with
        | nil => exact absurd rfl hne
        | cons c' u' =>
          rw [List.cons_append, List.cons.injEq] at huv
          rcases huv with ⟨rfl, rfl⟩
          rw [deriv, rmatch_mkCat]
          exact RMatch.cat (iha hu) hv

theorem rmatchB_iff {r : RE} {s : List Char} :
    rmatchB r s = true ↔ RMatch r s := by
  induction s generalizing r with
  | nil => exact nullable_iff
  | cons c t ih =>
      simp only [rmatchB, List.foldl_cons]
      constructor
      · intro h; exact deriv_sound (ih.mp h)
      · intro h; exact ih.mpr (deriv_complete h)

theorem rmatch_anyStar (s : List Char) : RMatch anyStar s := by
  induction s with
  | nil => exact .starNil
  | cons c t ih =>
      have : RMatch anyStar ([c] ++ t) := RMatch.starCons (.cls rfl) ih
      simpa using this

theorem containsB_iff {r : RE} {s : List Char} :
    containsB r s = true ↔ ∃ u e v, s = u ++ e ++ v ∧ RMatch r e := by
  unfold containsB
  rw [rmatchB_iff]
  constructor
  · intro h
    rcases rmatch_cat_iff.mp h with ⟨u, w, huv, _, hw⟩
    rcases rmatch_cat_iff.mp hw with ⟨e, v, hev, he, _⟩
    exact ⟨u, e, v, by rw [← huv, ← hev, List.append_assoc], he⟩
  · rintro ⟨u, e, v, rfl, he⟩
    have : RMatch (.cat anyStar (.cat r anyStar)) (u ++ (e ++ v)) :=
      RMatch.cat (rmatch_anyStar u) (RMatch.cat he (rmatch_anyStar v))
    simpa [List.append_assoc] using this

/-! ## Kleene logic evaluation lemmas -/

@[simp] theorem kor_some (a b : Bool) : kor (some a) (some b) = some (a || b) := by
  cases a <;> cases b <;> rfl

@[simp] theorem kand_some (a b : Bool) : kand (some a) (some b) = some (a && b) := by
  cases a <;> cases b <;> rfl

@[simp] theorem kor_true_left (x : Option Bool) : kor (some true) x = some true := by
  cases x with
  | none => rfl
  | some b => cases b <;> rfl

@[simp] theorem kor_true_right (x : Option Bool) : kor x (some true) = some true := by
  cases x with
  | none => rfl
  | some b => cases b <;> rfl

@[simp] theorem kor_false_left (x : Option Bool) : kor (some false) x = x := by
  cases x with
  | none => rfl
  | some b => cases b <;> rfl

@[simp] theorem kor_false_right (x : Option Bool) : kor x (some false) = x := by
  cases x with
  | none => rfl
  | some b => cases b <;> rfl

@[simp] theorem knot_some (a : Bool) : knot (some a) = some (!a) := rfl

@[simp] theorem kand_false_left (x : Option Bool) : kand (some false) x = some false := by
  cases x with
  | none => rfl
  | some b => cases b <;> rfl

@[simp] theorem kand_false_right (x : Option Bool) : kand x (some false) = some false := by
  cases x with
  | none => rfl
  | some b => cases b <;> rfl

@[simp] theorem kand_true_left (x : Option Bool) : kand (some true) x = x := by
  cases x with
  | none => rfl
  | some b => cases b <;> rfl

/-! ## Evaluation lemmas for the anomaly predicates -/

theorem is_18yo_none_birth (cd : Option Date) : is_18yo none cd = some true := by
  unfold is_18yo
  simp [isNullO]

theorem is_18yo_none_created (bd : Option Date) : is_18yo bd none = some true := by
  unfold is_18yo
  simp [isNullO]

theorem is_18yo_some_some (b c : Date) :
    is_18yo (some b) (some c) = some (decide (specAgeYears b c < 18)) := by
  unfold is_18yo specAgeYears
  simp only [Option.map_some', isNullO, Option.isNone_some, oEq, oLtI, oSubI, b2i,
             Option.some_bind, kand_some, kor_some, Bool.false_or, kor_false_left,
             Bool.or_self, Bool.or_eq_true, Bool.and_eq_true, decide_eq_true_eq]

theorem is_18yo_total (bd cd : Option Date) : ∃ x, is_18yo bd cd = some x := by
  cases bd with
  | none => exact ⟨true, is_18yo_none_birth cd⟩
  | some b =>
      cases cd with
      | none => exact ⟨true, is_18yo_none_created _⟩
      | some c => exact ⟨_, is_18yo_some_some b c⟩

theorem is_invalid_phone_math_none : is_invalid_phone_math none = some true := rfl

theorem is_invalid_phone_math_some (p : Int) :
    is_invalid_phone_math (some p) =
      some (((decide (p < 10 ^ 9) || decide ((10 : Int) ^ 10 ≤ p)) ||
             (decide (Int.tdiv p (10 ^ 9) = 0) || decide (Int.tdiv p (10 ^ 9) = 1))) ||
            (decide (Int.tdiv p (10 ^ 7) = 555) || decide (Int.tdiv p (10 ^ 7) = 911))) := by
  unfold is_invalid_phone_math
  simp only [isNullO, Option.isNone_some, oLtI, oGeI, oEq, oTdiv, Option.some_bind,
             Option.map_some', kor_some, kor_false_left, Bool.false_or]

theorem is_invalid_phone_math_total (p : Option Int) :
    ∃ x, is_invalid_phone_math p = some x := by
  cases p with
  | none => exact ⟨true, rfl⟩
  | some v => exact ⟨_, is_invalid_phone_math_some v⟩

theorem is_email_invalid_none : is_email_invalid none = some true := rfl

theorem is_email_invalid_some (s : String) :
    is_email_invalid (some s) =
      some (decide ((s.length : Int) = 0) || !containsB EMAIL_REGEX s.data) := by
  unfold is_email_invalid
  simp only [isNullO, Option.isNone_some, oLenS, oEq, Option.map_some', Option.some_bind,
             knot_some, kor_some, kor_false_left, Bool.false_or]

theorem is_email_invalid_total (e : Option String) : ∃ x, is_email_invalid e = some x := by
  cases e with
  | none => exact ⟨true, rfl⟩
  | some s => exact ⟨_, is_email_invalid_some s⟩

theorem is_invalid_status_none : is_invalid_status none = some true := rfl

theorem is_invalid_status_some (s : String) :
    is_invalid_status (some s) = some (decide ((s.length : Int) = 0)) := by
  unfold is_invalid_status
  simp only [isNullO, Option.isNone_some, oLenS, oEq, Option.map_some', Option.some_bind,
             kor_false_left]

theorem is_invalid_status_total (st : Option String) :
    ∃ x, is_invalid_status st = some x := by
  cases st with
  | none => exact ⟨true, rfl⟩
  | some s => exact ⟨_, is_invalid_status_some s⟩

theorem is_invalid_identifiers_total (e : Option String) (p : Option Int)
    (bd : Option Date) : ∃ x, is_invalid_identifiers e p bd = some x := by
  unfold is_invalid_identifiers
  cases bd with
  | none => exact ⟨true, by simp [isNullO]⟩
  | some b =>
      obtain ⟨eb, he⟩ := is_email_invalid_total e
      obtain ⟨pb, hp⟩ := is_invalid_phone_math_total p
      exact ⟨eb || pb, by simp [isNullO, he, hp]⟩

/-! ## Projection lemmas for the pipeline stages -/

theorem flagRecord_carries (t : TypedRec) : (flagRecord t).toTypedRec = t := rfl

theorem flagRecord_age (t : TypedRec) :
    (flagRecord t).is_age_anomaly = is_18yo t.birth_date_dt t.created_at_dt := rfl

theorem flagRecord_ident (t : TypedRec) :
    (flagRecord t).is_identifier_anomaly =
      is_invalid_identifiers t.email_stripped t.phone_int t.birth_date_dt := rfl

theorem flagRecord_status (t : TypedRec) :
    (flagRecord t).is_status_anomaly = is_invalid_status t.status_lower := rfl

theorem flagRecord_overall (t : TypedRec) :
    (flagRecord t).is_anomalous =
      kor (kor (flagRecord t).is_age_anomaly (flagRecord t).is_identifier_anomaly)
        (flagRecord t).is_status_anomaly := rfl

/-- The three flags of a flagged record are always non-null, and the
overall flag is their (left-associated) disjunction. -/
theorem flagRecord_spec (t : TypedRec) :
    ∃ a i s : Bool,
      (flagRecord t).is_age_anomaly = some a ∧
      (flagRecord t).is_identifier_anomaly = some i ∧
      (flagRecord t).is_status_anomaly = some s ∧
      (flagRecord t).is_anomalous = some ((a || i) || s) := by
  obtain ⟨a, ha⟩ := is_18yo_total t.birth_date_dt t.created_at_dt
  obtain ⟨i, hi⟩ := is_invalid_identifiers_total t.email_stripped t.phone_int t.birth_date_dt
  obtain ⟨s, hs⟩ := is_invalid_status_total t.status_lower
  refine ⟨a, i, s, ?_, ?_, ?_, ?_⟩
  · rw [flagRecord_age]; exact ha
  · rw [flagRecord_ident]; exact hi
  · rw [flagRecord_status]; exact hs
  · rw [flagRecord_overall, flagRecord_age, flagRecord_ident, flagRecord_status,
        ha, hi, hs, kor_some, kor_some]

theorem cleanRecord_status_def (r : FlaggedRec) :
    (cleanRecord r).status =
      whenTO (kand (oEq r.is_anomalous (some false)) (oEq r.status_lower (some "active")))
        (some "active") (some "cancelled") := rfl

theorem cleanRecord_first_name_def (r : FlaggedRec) :
    (cleanRecord r).first_name =
      (let fc := r.first_name.map fun s => strTitle (strTrim s)
       whenTO (kor (isNullO fc) (oEq (oLenS fc) (some 0))) (some "Unknown") fc) := rfl

theorem cleanRecord_last_name_def (r : FlaggedRec) :
    (cleanRecord r).last_name =
      (let lc := r.last_name.map fun s => strTitle (strTrim s)
       whenTO (kor (isNullO lc) (oEq (oLenS lc) (some 0))) (some "Unknown") lc) := rfl

theorem cleanRecord_phone_def (r : FlaggedRec) :
    (cleanRecord r).phone =
      whenTO (isNullO r.phone_int) (some (-999999999 : Int)) r.phone_int := rfl

theorem cleanRecord_id_def (r : FlaggedRec) : (cleanRecord r).id = r.id_int := rfl

theorem cleanRecord_email_def (r : FlaggedRec) :
    (cleanRecord r).email = r.email_stripped := rfl

theorem cleanRecord_birth_def (r : FlaggedRec) :
    (cleanRecord r).birth_date = r.birth_date_dt := rfl

theorem cleanRecord_created_def (r : FlaggedRec) :
    (cleanRecord r).created_at = r.created_at_dt := rfl

theorem cleanRecord_first_name_none {r : FlaggedRec} (h : r.first_name = none) :
    (cleanRecord r).first_name = some "Unknown" := by
  rw [cleanRecord_first_name_def]
  simp [h, isNullO, whenTO]

theorem cleanRecord_first_name_some {r : FlaggedRec} {s : String} (h : r.first_name = some s) :
    (cleanRecord r).first_name =
      (if (strTitle (strTrim s)).length = 0 then some "Unknown"
       else some (strTitle (strTrim s))) := by
  rw [cleanRecord_first_name_def]
  simp only [h, Option.map_some', isNullO, Option.isNone_some, oLenS, oEq,
             Option.some_bind, kor_false_left]
  by_cases hl : (strTitle (strTrim s)).length = 0
  · simp [hl, whenTO]
  · simp [hl, whenTO, Int.natCast_eq_zero]

theorem cleanRecord_last_name_none {r : FlaggedRec} (h : r.last_name = none) :
    (cleanRecord r).last_name = some "Unknown" := by
  rw [cleanRecord_last_name_def]
  simp [h, isNullO, whenTO]

theorem cleanRecord_last_name_some {r : FlaggedRec} {s : String} (h : r.last_name = some s) :
    (cleanRecord r).last_name =
      (if (strTitle (strTrim s)).length = 0 then some "Unknown"
       else some (strTitle (strTrim s))) := by
  rw [cleanRecord_last_name_def]
  simp only [h, Option.map_some', isNullO, Option.isNone_some, oLenS, oEq,
             Option.some_bind, kor_false_left]
  by_cases hl : (strTitle (strTrim s)).length = 0
  · simp [hl, whenTO]
  · simp [hl, whenTO, Int.natCast_eq_zero]

theorem cleanRecord_phone_none {r : FlaggedRec} (h : r.phone_int = none) :
    (cleanRecord r).phone = some (-999999999 : Int) := by
  rw [cleanRecord_phone_def]
  simp [h, isNullO, whenTO]

theorem cleanRecord_phone_some {r : FlaggedRec} {p : Int} (h : r.phone_int = some p) :
    (cleanRecord r).phone = some p := by
  rw [cleanRecord_phone_def]
  simp [h, isNullO, whenTO]

/-- Composed status behavior of classification followed by remediation:
the final status is one of the two strings, and it is `"active"` exactly
when the record is clean and its normalized status is `"active"`. -/
theorem cleanRecord_flag_status_spec (t : TypedRec) :
    ((cleanRecord (flagRecord t)).status = some "active" ∨
      (cleanRecord (flagRecord t)).status = some "cancelled") ∧
    ((cleanRecord (flagRecord t)).status = some "active" ↔
      ((flagRecord t).is_anomalous = some false ∧ t.status_lower = some "active")) := by
  obtain ⟨a, i, s, ha, hi, hs, ho⟩ := flagRecord_spec t
  have hsl : (flagRecord t).status_lower = t.status_lower := rfl
  rw [cleanRecord_status_def, ho, hsl]
  cases hst : t.status_lower with
  | none =>
      have h1 := hs
      rw [flagRecord_status, hst, is_invalid_status_none] at h1
      injection h1 with h2
      constructor
      · right
        simp [oEq, whenTO, ← h2, Bool.or_true]
      · simp [oEq, whenTO, ← h2, Bool.or_true, kand]
  | some sl =>
      by_cases hb : ((a || i) || s) = false <;> by_cases hsl2 : sl = "active" <;>
        simp [oEq, whenTO, hb, hsl2]

/-! ## The claims -/

/-- C1: the remediation stage yields exactly one Cleaned Record per
Flagged Record (no row dropped), the final status is always `"active"`
or `"cancelled"`, and it is `"active"` iff the overall anomaly flag is
false and the normalized status equals `"active"`. -/
theorem c1_status_remediation :
    (∀ l : List TypedRec,
      (usersStageModel (usersFlaggedModel l)).length = l.length) ∧
    (∀ t : TypedRec,
      ((cleanRecord (flagRecord t)).status = some "active" ∨
        (cleanRecord (flagRecord t)).status = some "cancelled") ∧
      ((cleanRecord (flagRecord t)).status = some "active" ↔
        ((flagRecord t).is_anomalous = some false ∧ t.status_lower = some "active"))) := by
  constructor
  · intro l
    simp [usersStageModel, usersFlaggedModel]
  · intro t
    exact cleanRecord_flag_status_spec t

/-- C2: for every record the three sub-flags are all computed (each
equals its predicate and is non-null), and the overall anomaly flag is
exactly their disjunction. -/
theorem c2_overall_disjunction :
    ∀ t : TypedRec,
      (flagRecord t).is_age_anomaly = is_18yo t.birth_date_dt t.created_at_dt ∧
      (flagRecord t).is_identifier_anomaly =
        is_invalid_identifiers t.email_stripped t.phone_int t.birth_date_dt ∧
      (flagRecord t).is_status_anomaly = is_invalid_status t.status_lower ∧
      ∃ a i s : Bool,
        (flagRecord t).is_age_anomaly = some a ∧
        (flagRecord t).is_identifier_anomaly = some i ∧
        (flagRecord t).is_status_anomaly = some s ∧
        (flagRecord t).is_anomalous = some (a || i || s) := by
  intro t
  obtain ⟨a, i, s, ha, hi, hs, ho⟩ := flagRecord_spec t
  exact ⟨rfl, rfl, rfl, a, i, s, ha, hi, hs, by rw [ho, Bool.or_assoc]⟩

/-- C3 counterexample: a record whose email is absent upstream reaches
the remediation stage and leaves it with a missing (`none`) email — no
sentinel is substituted for the pass-through fields, refuting "no field
is missing/null ... including a defined sentinel behavior for the
pass-through fields". -/
theorem c3_counterexample :
    (cleanRecord (flagRecord missingEmailRec)).email = none := rfl

/-- C3 (amended): the remediated fields `first_name`, `last_name`,
`phone`, `status` are never null; the pass-through fields `id`, `email`,
`birth_date`, `created_at` are carried unchanged from the Typed Record,
so each of them is null exactly when the typed field was null (no
sentinel behavior is defined for them). -/
theorem c3_amended_no_missing_fields :
    ∀ t : TypedRec,
      (∃ s, (cleanRecord (flagRecord t)).first_name = some s) ∧
      (∃ s, (cleanRecord (flagRecord t)).last_name = some s) ∧
      (∃ p, (cleanRecord (flagRecord t)).phone = some p) ∧
      (∃ s, (cleanRecord (flagRecord t)).status = some s) ∧
      (cleanRecord (flagRecord t)).id = t.id_int ∧
      (cleanRecord (flagRecord t)).email = t.email_stripped ∧
      (cleanRecord (flagRecord t)).birth_date = t.birth_date_dt ∧
      (cleanRecord (flagRecord t)).created_at = t.created_at_dt := by
  intro t
  refine ⟨?_, ?_, ?_, ?_, rfl, rfl, rfl, rfl⟩
  · cases hf : (flagRecord t).first_name with
    | none => exact ⟨"Unknown", cleanRecord_first_name_none hf⟩
    | some s =>
        rw [cleanRecord_first_name_some hf]
        by_cases hl : (strTitle (strTrim s)).length = 0
        · exact ⟨"Unknown", by rw [if_pos hl]⟩
        · exact ⟨strTitle (strTrim s), by rw [if_neg hl]⟩
  · cases hf : (flagRecord t).last_name with
    | none => exact ⟨"Unknown", cleanRecord_last_name_none hf⟩
    | some s =>
        rw [cleanRecord_last_name_some hf]
        by_cases hl : (strTitle (strTrim s)).length = 0
        · exact ⟨"Unknown", by rw [if_pos hl]⟩
        · exact ⟨strTitle (strTrim s), by rw [if_neg hl]⟩
  · cases hp : (flagRecord t).phone_int with
    | none => exact ⟨-999999999, cleanRecord_phone_none hp⟩
    | some p => exact ⟨p, cleanRecord_phone_some hp⟩
  · rcases (cleanRecord_flag_status_spec t).1 with h | h
    · exact ⟨"active", h⟩
    · exact ⟨"cancelled", h⟩

/-- C4: the age predicate flags exactly on missing birth date, missing
creation date, or computed whole-year age (with the lexicographic
month/day correction) below 18; the 18th-birthday boundary behaves as
stated. -/
theorem c4_age_predicate_exact :
    (∀ cd : Option Date, is_18yo none cd = some true) ∧
    (∀ bd : Option Date, is_18yo bd none = some true) ∧
    (∀ b c : Date, is_18yo (some b) (some c) = some (decide (specAgeYears b c < 18))) ∧
    is_18yo (some ⟨2000, 6, 15⟩) (some ⟨2018, 6, 15⟩) = some false ∧
    is_18yo (some ⟨2000, 6, 15⟩) (some ⟨2018, 6, 14⟩) = some true :=
  ⟨is_18yo_none_birth, is_18yo_none_created, is_18yo_some_some, by decide, by decide⟩

/-- C5: the phone sub-check passes exactly the 10-digit numbers whose
first digit is not 0/1 and whose first three digits are not 555/911;
missing phone is anomalous, and the boundary examples (including the
raw string "0123456789" parsing to 123456789) behave as stated. -/
theorem c5_phone_subcheck_exact :
    (∀ p : Int, is_invalid_phone_math (some p) = some false ↔
        ((10 ^ 9 ≤ p ∧ p < 10 ^ 10) ∧
         (Int.tdiv p (10 ^ 9) ≠ 0 ∧ Int.tdiv p (10 ^ 9) ≠ 1) ∧
         (Int.tdiv p (10 ^ 7) ≠ 555 ∧ Int.tdiv p (10 ^ 7) ≠ 911))) ∧
    is_invalid_phone_math none = some true ∧
    is_invalid_phone_math (some 9999999999) = some false ∧
    is_invalid_phone_math (some 15551234567) = some true ∧
    is_invalid_phone_math (some 5551234567) = some true ∧
    castInt64 "0123456789" = some 123456789 ∧
    is_invalid_phone_math (some 123456789) = some true := by
  refine ⟨fun p => ?_, rfl, by decide, by decide, by decide, by decide, by decide⟩
  rw [is_invalid_phone_math_some]
  simp only [Option.some.injEq, Bool.or_eq_false_iff, decide_eq_false_iff_not,
             not_lt, not_le]
  tauto

/-- C6: the email sub-check is anomalous exactly on missing email, empty
email, or failure of the `EMAIL_REGEX` containment check, with
"user@example.com" valid and "", missing, "not-an-email" invalid. -/
theorem c6_email_subcheck :
    is_email_invalid none = some true ∧
    (∀ s : String,
      is_email_invalid (some s) =
        some (decide ((s.length : Int) = 0) || !containsB EMAIL_REGEX s.data)) ∧
    is_email_invalid (some "user@example.com") = some false ∧
    is_email_invalid (some "") = some true ∧
    is_email_invalid (some "not-an-email") = some true :=
  ⟨rfl, is_email_invalid_some, by decide, by decide, by decide⟩

/-- C7: the anomaly-log projector keeps exactly the records whose
overall flag is true (so its length is their count), preserves input
order (it is the order-preserving filter-then-project), and every
entry's three flags equal the source record's flags. -/
theorem c7_audit_log_exact :
    ∀ l : List FlaggedRec,
      (anomaliesLogModel l).length =
        l.countP (fun r => decide (r.is_anomalous = some true)) ∧
      anomaliesLogModel l =
        (l.filter fun r => decide (r.is_anomalous = some true)).map auditProj ∧
      (∀ r : FlaggedRec, keepAnomalous r = true ↔ r.is_anomalous = some true) ∧
      (∀ r : FlaggedRec,
        (auditProj r).is_age_anomaly = r.is_age_anomaly ∧
        (auditProj r).is_identifier_anomaly = r.is_identifier_anomaly ∧
        (auditProj r).is_status_anomaly = r.is_status_anomaly) := by
  have hpred : ∀ r : FlaggedRec, keepAnomalous r = decide (r.is_anomalous = some true) := by
    intro r
    unfold keepAnomalous
    cases h : r.is_anomalous with
    | none => simp [oEq, h]
    | some b => cases b <;> simp [oEq, h]
  intro l
  have hfil : l.filter keepAnomalous =
      l.filter fun r => decide (r.is_anomalous = some true) :=
    List.filter_congr fun r _ => hpred r
  refine ⟨?_, ?_, fun r => ?_, fun r => ⟨rfl, rfl, rfl⟩⟩
  · unfold anomaliesLogModel
    rw [List.length_map, hfil, List.countP_eq_length_filter]
  · unfold anomaliesLogModel
    rw [hfil]
  · rw [hpred r]
    exact decide_eq_true_iff

/-- C8: names are trimmed, title-cased, and imputed to "Unknown" when
the result is missing or empty (in particular a blank first name); a
missing phone is imputed to the fixed negative sentinel -999999999,
which no valid 10-digit phone value can equal. -/
theorem c8_name_phone_imputation :
    ∀ r : FlaggedRec,
      (r.first_name = none → (cleanRecord r).first_name = some "Unknown") ∧
      (∀ s : String, r.first_name = some s →
        (cleanRecord r).first_name =
          (if (strTitle (strTrim s)).length = 0 then some "Unknown"
           else some (strTitle (strTrim s)))) ∧
      (r.last_name = none → (cleanRecord r).last_name = some "Unknown") ∧
      (∀ s : String, r.last_name = some s →
        (cleanRecord r).last_name =
          (if (strTitle (strTrim s)).length = 0 then some "Unknown"
           else some (strTitle (strTrim s)))) ∧
      (r.first_name = some "   " → (cleanRecord r).first_name = some "Unknown") ∧
      (r.phone_int = none → (cleanRecord r).phone = some (-999999999 : Int)) ∧
      (∀ p : Int, r.phone_int = some p → (cleanRecord r).phone = some p) ∧
      (-999999999 : Int) < 0 ∧
      (∀ p : Int, 10 ^ 9 ≤ p → p ≠ (-999999999 : Int)) := by
  intro r
  refine ⟨fun h => cleanRecord_first_name_none h,
          fun s h => cleanRecord_first_name_some h,
          fun h => cleanRecord_last_name_none h,
          fun s h => cleanRecord_last_name_some h,
          fun h => ?_,
          fun h => cleanRecord_phone_none h,
          fun p h => cleanRecord_phone_some h,
          by decide,
          fun p hp => by omega⟩
  rw [cleanRecord_first_name_some h]
  decide

/-- C8 witness: on a concrete record with a blank first name and a
missing phone, the theorem yields "Unknown" and the sentinel. -/
theorem c8_witness :
    blankNameRec.first_name = some "   " ∧
    blankNameRec.phone_int = none ∧
    (cleanRecord blankNameRec).first_name = some "Unknown" ∧
    (cleanRecord blankNameRec).phone = some (-999999999 : Int) :=
  ⟨rfl, rfl,
   (c8_name_phone_imputation blankNameRec).2.2.2.2.1 rfl,
   (c8_name_phone_imputation blankNameRec).2.2.2.2.2.1 rfl⟩

/-- C9: re-running the pipeline (re-coercion, classification,
remediation) on an already-cleaned, non-anomalous record set whose
status is "active" yields status "active" unchanged for every record. -/
theorem c9_pipeline_idempotent :
    ∀ lc : List CleanedRec,
      (∀ c ∈ lc, (flagRecord (retypeCleaned c)).is_anomalous = some false ∧
        c.status = some "active") →
      ∀ out ∈ usersStageModel (usersFlaggedModel (lc.map retypeCleaned)),
        out.status = some "active" := by
  intro lc h out hout
  simp only [usersStageModel, usersFlaggedModel, List.map_map, List.mem_map,
             Function.comp_apply] at hout
  obtain ⟨c, hc, rfl⟩ := hout
  obtain ⟨hflag, hstat⟩ := h c hc
  rw [cleanRecord_status_def, hflag]
  have hsl : (flagRecord (retypeCleaned c)).status_lower = (retypeCleaned c).status_lower := rfl
  rw [hsl]
  have hlow : (retypeCleaned c).status_lower = some "active" := by
    show c.status.map strLower = some "active"
    rw [hstat]
    decide
  rw [hlow]
  simp [oEq, whenTO]

/-- C9 witness: a concrete fully valid cleaned active record re-runs to
status "active". -/
theorem c9_witness :
    (cleanRecord (flagRecord (retypeCleaned cleanActiveRec))).status = some "active" := by
  have h : ∀ c ∈ [cleanActiveRec],
      (flagRecord (retypeCleaned c)).is_anomalous = some false ∧
      c.status = some "active" := by
    intro c hc
    rw [List.mem_singleton] at hc
    subst hc
    exact ⟨by decide, rfl⟩
  exact c9_pipeline_idempotent [cleanActiveRec] h
    (cleanRecord (flagRecord (retypeCleaned cleanActiveRec)))
    (by simp [usersStageModel, usersFlaggedModel])

/-- C10: the email check is a substring containment test against a
lowercase-only grammar: any string with a well-formed (hence lowercase)
email as a contiguous substring passes, while an all-uppercase email
fails. -/
theorem c10_contains_substring_semantics :
    (∀ s e : String, rmatchB EMAIL_REGEX e.data = true → e.data <:+: s.data →
      is_email_invalid (some s) = some false) ∧
    is_email_invalid (some "USER@EXAMPLE.COM") = some true ∧
    is_email_invalid (some "name <user@example.com>") = some false := by
  refine ⟨?_, by decide, by decide⟩
  intro s e hm hinf
  obtain ⟨u, v, huv⟩ := hinf
  have he : RMatch EMAIL_REGEX e.data := rmatchB_iff.mp hm
  have hcont : containsB EMAIL_REGEX s.data = true :=
    containsB_iff.mpr ⟨u, e.data, v, huv.symm, he⟩
  have hne : e.data ≠ [] := by
    intro h0
    rw [h0] at he
    have hn : nullable EMAIL_REGEX = true := nullable_iff.mpr he
    exact absurd hn (by decide)
  have hdata : s.data ≠ [] := by
    rw [← huv]
    simp [hne]
  have hlen : s.length ≠ 0 := by
    intro hz
    exact hdata (List.length_eq_zero.mp hz)
  rw [is_email_invalid_some]
  simp [hcont, hlen]

/-- C10 witness: "user@example.com" matches the grammar, is an infix of
"name <user@example.com>", and that string passes the check. -/
theorem c10_witness :
    rmatchB EMAIL_REGEX "user@example.com".data = true ∧
    "user@example.com".data <:+: "name <user@example.com>".data ∧
    is_email_invalid (some "name <user@example.com>") = some false := by
  refine ⟨by decide, ⟨"name <".data, ">".data, by decide⟩, ?_⟩
  exact c10_contains_substring_semantics.1 "name <user@example.com>" "user@example.com"
    (by decide) ⟨"name <".data, ">".data, by decide⟩

end Sgth
